import Mathlib

/-!
Verification development for the ml-retraining-pipeline repository.

Shallow embedding of the continuous-training orchestrator:
* the MLflow model-registry state (`ModelVersion` list) and its
  `transition_model_version_stage` / `register_model` operations
  (src/pipeline/tasks/register.py),
* the promotion algorithm `promote_model` (register.py, lines 242-395),
* the CT to CD handoff `trigger_cd_pipeline` (register.py, lines 25-137),
* the drift-analysis decision `run_drift_analysis` /
  `check_drift_and_performance` (src/model_monitoring/monitoring.py,
  src/pipeline/flows.py),
* the orchestrating flow `retraining_flow` (src/pipeline/flows.py).

Accuracies (Python floats compared with `>` / `==` / `>=`) are embedded as
rationals; each fallible external call (registry, network, drift library)
is driven by an explicit environment record describing whether the call
succeeds and what it returns, so that exception control flow of the Python
source becomes explicit case analysis.
-/

namespace MLPipeline

/-- Registry stage of a model version, mirroring the MLflow stage enum
`None | Staging | Production | Archived`. -/
inductive Stage where
  | none
  | staging
  | production
  | archived
deriving DecidableEq, Repr

/-- Value of the `accuracy` tag stored on a model version.  Tags are strings
in MLflow; `num q` is a tag that `float()` parses to `q`, `malformed` is a
tag on which `float()` raises. -/
inductive TagVal where
  | num (q : ℚ)
  | malformed
deriving DecidableEq, Repr

/-- A registered model version: `{name, version, stage, run_id, accuracy tag}`
(register.py stores the accuracy tag at registration time; a version created
by other means may lack it). -/
structure ModelVersion where
  name : String
  version : Nat
  stage : Stage
  runId : String
  accuracyTag : Option TagVal
deriving DecidableEq, Repr

/-- The registry state for all model names: the full list of registered
versions. -/
abbrev Registry := List ModelVersion

/-- The settings fields consulted by the embedded code
(src/config/settings.py). -/
structure Settings where
  MODEL_REGISTRY_NAME : String
  MIN_TRAINING_ACCURACY : ℚ
  MODEL_PERFORMANCE_DEGRADATION_THRESHOLD : ℚ
  ENABLE_CD_TRIGGER : Bool
  GITHUB_TOKEN : String
  GITHUB_REPO_OWNER : String
  GITHUB_REPO_NAME : String
deriving DecidableEq, Repr

/-- Elementwise effect of `client.transition_model_version_stage(name, ver,
stage, archive_existing_versions)`: the targeted version gets the new stage;
when `archive` is set, every other version of the same name already in the
target stage is moved to `Archived` (MLflow semantics of
`archive_existing_versions=True`). -/
def applyTransition (name : String) (ver : Nat) (tgt : Stage) (arch : Bool)
    (m : ModelVersion) : ModelVersion :=
  if m.name = name ∧ m.version = ver then { m with stage := tgt }
  else if arch = true ∧ m.name = name ∧ m.stage = tgt then
    { m with stage := Stage.archived }
  else m

/-- `client.transition_model_version_stage` over the whole registry state. -/
def transitionStage (regs : Registry) (name : String) (ver : Nat)
    (tgt : Stage) (arch : Bool) : Registry :=
  regs.map (applyTransition name ver tgt arch)

/-- The stage currently recorded for `(name, ver)` in the registry. -/
def stageOf (regs : Registry) (name : String) (ver : Nat) : Option Stage :=
  (regs.find? (fun m => decide (m.name = name ∧ m.version = ver))).map
    (fun m => m.stage)

/-- Version with the greatest version number in a list (MLflow's
`get_latest_versions` picks the highest version per requested stage). -/
def maxByVersion : List ModelVersion → Option ModelVersion
  | [] => Option.none
  | m :: rest =>
    match maxByVersion rest with
    | Option.none => some m
    | some b => if b.version < m.version then some m else some b

/-- `client.get_latest_versions(model_name, stages=["Production"])`, reduced
to the single element the source reads (`current_prod_models[0]`). -/
def latestProd (regs : Registry) (name : String) : Option ModelVersion :=
  maxByVersion
    (regs.filter (fun m => decide (m.name = name ∧ m.stage = Stage.production)))

/-- Outcome of the HTTP POST in `trigger_cd_pipeline`: a response with a
status code, a `requests.exceptions.RequestException`, or any other
exception. -/
inductive HttpResult where
  | ok (status : Nat)
  | raiseNetwork
  | raiseOther
deriving DecidableEq, Repr

/-- Result of `trigger_cd_pipeline`: the returned boolean, and whether the
network request was actually issued. -/
structure TriggerResult where
  ok : Bool
  requested : Bool
deriving DecidableEq, Repr

/-- The body of the `try` block of `trigger_cd_pipeline`
(register.py, lines 74-126): issue the POST; a 204 response returns `True`,
any other status returns `False`, an exception propagates to the handlers. -/
def triggerRequest (http : HttpResult) : Except Unit Bool :=
  match http with
  | HttpResult.ok st => Except.ok (decide (st = 204))
  | HttpResult.raiseNetwork => Except.error ()
  | HttpResult.raiseOther => Except.error ()

/-- `trigger_cd_pipeline(model_version, model_accuracy, settings)`
(register.py, lines 25-137).  Gated on `ENABLE_CD_TRIGGER` and on the three
GitHub identifiers being non-empty (`all([...])` with Python falsiness of
the empty string); both `except` clauses turn any exception of the request
into a `False` return. -/
def trigger_cd_pipeline (s : Settings) (http : HttpResult) : TriggerResult :=
  if s.ENABLE_CD_TRIGGER = false then ⟨false, false⟩
  else if s.GITHUB_TOKEN = "" ∨ s.GITHUB_REPO_OWNER = "" ∨
      s.GITHUB_REPO_NAME = "" then ⟨false, false⟩
  else
    match triggerRequest http with
    | Except.ok b => ⟨b, true⟩
    | Except.error _ => ⟨false, true⟩

/-- Environment driving the fallible registry/network calls made by
`register_model` / `promote_model`.  A `false` flag means the corresponding
client call raises; `getRunMetric` is the outcome of
`client.get_run(run_id).data.metrics["accuracy"]` (value, or a raised
lookup/registry error). -/
structure RegEnv where
  registerOk : Bool
  updateOk : Bool
  getLatestOk : Bool
  getRunMetric : Except Unit ℚ
  transOk : Bool
  transSafetyOk : Bool
  http : HttpResult
deriving Repr

/-- The incumbent-accuracy lookup chain of `promote_model`
(register.py, lines 314-331): `current_accuracy = 0.0`; try to parse the
`accuracy` tag; when the parsed tag equals `0.0` (also when the tag is
absent, since `tags.get` defaults to `0.0`) fall back to the metrics store;
any exception in the chain is caught and leaves the last assigned value,
which is `0.0` in every raising case. -/
def lookupCurrentAccuracy (tag : Option TagVal) (getRunMetric : Except Unit ℚ) : ℚ :=
  match tag with
  | Option.none =>
    match getRunMetric with
    | Except.ok m => m
    | Except.error _ => 0
  | some TagVal.malformed => 0
  | some (TagVal.num q) =>
    if q = 0 then
      match getRunMetric with
      | Except.ok m => m
      | Except.error _ => 0
    else q

/-- Result of a `promote_model` call: the registry afterwards, the result
of the CT to CD handoff (`some r` exactly when `trigger_cd_pipeline` was
called, its returned value being `r.ok`; the source only logs it), and
whether an exception propagated out of `promote_model` to its caller. -/
structure PromoteResult where
  regs : Registry
  cdResult : Option TriggerResult
  raised : Bool
deriving DecidableEq, Repr

/-- The `except` handler of `promote_model` (register.py, lines 387-395):
log the error, then best-effort transition the new version to `Staging`.
The handler does not re-raise; only a failure of the safety transition
itself propagates. -/
def promoteExceptHandler (regs : Registry) (name : String) (ver : Nat)
    (env : RegEnv) : PromoteResult :=
  if env.transSafetyOk then
    ⟨transitionStage regs name ver Stage.staging false, Option.none, false⟩
  else ⟨regs, Option.none, true⟩

/-- `promote_model(client, new_model_version, new_accuracy, settings)`
(register.py, lines 242-395).  Queries the `Production` incumbent;
bootstrap-promotes when there is none; otherwise resolves the incumbent
accuracy through the tag/metric chain and promotes (archiving the incumbent
in the same transition) exactly when `new_accuracy > current_accuracy`,
demoting to `Staging` otherwise.  `cdCalled = true` records that the
handoff `trigger_cd_pipeline` was invoked (its boolean result only feeds
logging in the source, so it does not appear in the state).  Any exception
of the `try` body lands in `promoteExceptHandler`. -/
def promote_model (regs : Registry) (name : String) (ver : Nat)
    (newAcc : ℚ) (s : Settings) (env : RegEnv) : PromoteResult :=
  if env.getLatestOk = false then promoteExceptHandler regs name ver env
  else
    match latestProd regs name with
    | Option.none =>
      if env.transOk then
        ⟨transitionStage regs name ver Stage.production false,
          some (trigger_cd_pipeline s env.http), false⟩
      else promoteExceptHandler regs name ver env
    | some prod =>
      if lookupCurrentAccuracy prod.accuracyTag env.getRunMetric < newAcc then
        if env.transOk then
          ⟨transitionStage regs name ver Stage.production true,
            some (trigger_cd_pipeline s env.http), false⟩
        else promoteExceptHandler regs name ver env
      else
        if env.transOk then
          ⟨transitionStage regs name ver Stage.staging false, Option.none, false⟩
        else promoteExceptHandler regs name ver env

/-- The evaluation summary `{"metrics": {"accuracy": ...}, "is_eligible": ...}`
returned by `evaluate_model` (evaluate.py). -/
structure EvalResult where
  accuracy : ℚ
  eligible : Bool
deriving DecidableEq, Repr

/-- The eligibility computation of `evaluate_model` (evaluate.py, lines
78-99): `is_eligible = metrics["accuracy"] >= settings.MIN_TRAINING_ACCURACY`,
packaged with the accuracy itself.  The metric values are produced by the
external sklearn scorers and are inputs here. -/
def evaluate_model (accuracy : ℚ) (s : Settings) : EvalResult :=
  ⟨accuracy, decide (s.MIN_TRAINING_ACCURACY ≤ accuracy)⟩

/-- Greatest version number registered under `name` (0 when none). -/
def maxVer (regs : Registry) (name : String) : Nat :=
  regs.foldr (fun m acc => if m.name = name then max m.version acc else acc) 0

/-- The version number the registry assigns to the next registration of
`name` (registry-assigned, monotonic per name). -/
def nextVersion (regs : Registry) (name : String) : Nat :=
  maxVer regs name + 1

/-- Result of a `register_model` call: the returned model version
(`None` on the ineligible path and on a raising path), the registry
afterwards, whether an exception propagated, and whether the CT to CD
handoff was called. -/
structure RegisterResult where
  version : Option ModelVersion
  regs : Registry
  raised : Bool
  cdResult : Option TriggerResult
deriving DecidableEq, Repr

/-- `register_model(run_id, evaluation_results, settings,
promote_to_production)` (register.py, lines 140-239).  Ineligible
candidates return `None` before any client is constructed; otherwise the
model is registered (a fresh version with stage `None`, tagged with its
accuracy), its description is updated, and it is either handed to
`promote_model` or transitioned to `Staging` with
`archive_existing_versions=True`.  The outer `except` re-raises. -/
def register_model (regs : Registry) (runId : String) (ev : EvalResult)
    (s : Settings) (promote : Bool) (env : RegEnv) : RegisterResult :=
  if ev.eligible = false then ⟨Option.none, regs, false, Option.none⟩
  else if env.registerOk = false then ⟨Option.none, regs, true, Option.none⟩
  else
    let name := s.MODEL_REGISTRY_NAME
    let ver := nextVersion regs name
    let nv : ModelVersion :=
      ⟨name, ver, Stage.none, runId, some (TagVal.num ev.accuracy)⟩
    let regs1 := regs ++ [nv]
    if env.updateOk = false then ⟨Option.none, regs1, true, Option.none⟩
    else if promote then
      let pr := promote_model regs1 name ver ev.accuracy s env
      ⟨if pr.raised then Option.none else some nv, pr.regs, pr.raised, pr.cdResult⟩
    else
      if env.transOk then
        ⟨some nv, transitionStage regs1 name ver Stage.staging true, false,
          Option.none⟩
      else ⟨Option.none, regs1, true, Option.none⟩

/-- Extraction outcomes for the Evidently report dictionary
(`report.as_dict()`), as read by `run_drift_analysis` (monitoring.py,
lines 106-130).
* `driftIndex`: outcome of `report_json["metrics"][0]["result"]` followed by
  `.get("dataset_drift", False)` — outer `Option.none` means the indexing
  raised `IndexError`/`KeyError` (caught, drift defaults to `True`); inner
  `Option.none` means the `dataset_drift` key is absent (`.get` silently
  yields `False`).
* `perfIndex`: outcome of reading
  `(current.accuracy, reference.accuracy)` from `["metrics"][1]["result"]` —
  `Option.none` means some step raised (caught; defaults `(0.0, 1.0)`). -/
structure ReportDict where
  driftIndex : Option (Option Bool)
  perfIndex : Option (ℚ × ℚ)
deriving DecidableEq, Repr

/-- Behaviour of one invocation of the Evidently library inside
`run_drift_analysis`: whether `Report.run`/`save_html` succeed, the
extraction outcomes of the produced report dictionary, and whether the
trailing `TestSuite` run and summary access succeed. -/
structure DriftEnv where
  runOk : Bool
  report : ReportDict
  suiteOk : Bool
deriving DecidableEq, Repr

/-- The summary dictionary returned by `run_drift_analysis`
(monitoring.py, lines 172-178), without the report path. -/
structure AnalysisResult where
  data_drift_detected : Bool
  model_performance_degraded : Bool
  current_accuracy : ℚ
  reference_accuracy : ℚ
deriving DecidableEq, Repr

/-- `run_drift_analysis(reference_df, current_df, settings)`
(monitoring.py, lines 32-178).  A failure of `Report.run`/`save_html`
propagates (it is outside every `try`); extraction failures of the report
dictionary are caught with the defaults described at `ReportDict`;
degradation is `reference_accuracy - current_accuracy > threshold`; a
failure of the trailing test-suite run also propagates. -/
def run_drift_analysis (threshold : ℚ) (env : DriftEnv) :
    Except Unit AnalysisResult :=
  if env.runOk = false then Except.error ()
  else
    let drift :=
      match env.report.driftIndex with
      | Option.none => true
      | some Option.none => false
      | some (some b) => b
    let accs :=
      match env.report.perfIndex with
      | Option.none => ((0 : ℚ), (1 : ℚ))
      | some p => p
    let degraded := decide (threshold < accs.2 - accs.1)
    if env.suiteOk = false then Except.error ()
    else Except.ok ⟨drift, degraded, accs.1, accs.2⟩

/-- `check_drift_and_performance(reference_df, current_df)`
(flows.py, lines 111-144): run the analysis and return `True` when data
drift or performance degradation is reported; an exception of the analysis
propagates (there is no handler in the task). -/
def check_drift_and_performance (threshold : ℚ) (env : DriftEnv) :
    Except Unit Bool :=
  match run_drift_analysis threshold env with
  | Except.error e => Except.error e
  | Except.ok a => Except.ok (a.data_drift_detected || a.model_performance_degraded)

/-- One record of the datasets moved through the flow:
`{id, text, sentiment, prediction}`. -/
structure DataRec where
  id : Nat
  text : String
  sentiment : String
  prediction : String
deriving DecidableEq, Repr

/-- A dataset is an ordered collection of records. -/
abbrev Dataset := List DataRec

/-- `simulate_current_data(reference_df, new_raw_df)` (flows.py, lines
53-108; same fallback in data.py, lines 245-314).  `prodLoad` is the
outcome of loading the `Production` model: `Option.none` when
`mlflow.sklearn.load_model` raises for any reason, in which case the
reference dataset itself is returned; otherwise the loaded model's
predict function is mapped over the raw data. -/
def simulate_current_data (reference raw : Dataset)
    (prodLoad : Option (String → String)) : Dataset :=
  match prodLoad with
  | Option.none => reference
  | some predict =>
    raw.map (fun r => ⟨r.id, r.text, r.sentiment, predict r.text⟩)

/-- Outcome category of one `retraining_flow` run (spec taxonomy:
skipped, retrained, failed). -/
inductive FlowOutcome where
  | skipped
  | retrained
  | failed
deriving DecidableEq, Repr

/-- Result of one flow run: its outcome and the registry afterwards. -/
structure FlowResult where
  outcome : FlowOutcome
  regs : Registry
deriving Repr

/-- `retraining_flow(force_retrain)` (flows.py, lines 147-233).  The flow
body starts with `mlflow.set_tracking_uri(settings.MLFLOW_TRACKING_URI)`
(line 173), outside any `try`: `mlflowBound` says whether the module-level
name `mlflow` resolves at that point.  flows.py only does
`from mlflow.tracking import MlflowClient` and never binds `mlflow`, so in
the module as written `mlflowBound = false` and the call raises
`NameError`, failing every run before any stage; `mlflowBound = true`
models the flow with the missing `import mlflow` supplied.  After that:
load and validate the raw data (failures are fatal), load the reference
data, simulate the current dataset, decide retraining (`force_retrain`
bypasses the drift check), and on the retrain branch run train → evaluate
→ register/promote.  `engine` is the drift-analysis engine's behaviour on
the pair of datasets it is given; `trainedAcc` is the accuracy the
external training library achieves; `trainOk` covers the
preprocess/split/train stages raising. -/
def retraining_flow (mlflowBound : Bool) (regs : Registry)
    (forceRetrain : Bool)
    (raw reference : Dataset) (loadRawOk validateOk loadRefOk : Bool)
    (prodLoad : Option (String → String))
    (engine : Dataset → Dataset → DriftEnv)
    (trainOk : Bool) (trainedAcc : ℚ) (runId : String)
    (s : Settings) (env : RegEnv) : FlowResult :=
  if mlflowBound = false then ⟨FlowOutcome.failed, regs⟩
  else if loadRawOk = false then ⟨FlowOutcome.failed, regs⟩
  else if validateOk = false then ⟨FlowOutcome.failed, regs⟩
  else if loadRefOk = false then ⟨FlowOutcome.failed, regs⟩
  else
    let current := simulate_current_data reference raw prodLoad
    let needed : Except Unit Bool :=
      if forceRetrain then Except.ok true
      else
        check_drift_and_performance
          s.MODEL_PERFORMANCE_DEGRADATION_THRESHOLD (engine reference current)
    match needed with
    | Except.error _ => ⟨FlowOutcome.failed, regs⟩
    | Except.ok false => ⟨FlowOutcome.skipped, regs⟩
    | Except.ok true =>
      if trainOk = false then ⟨FlowOutcome.failed, regs⟩
      else
        let ev := evaluate_model trainedAcc s
        let rr := register_model regs runId ev s true env
        ⟨if rr.raised then FlowOutcome.failed else FlowOutcome.retrained, rr.regs⟩

/-- Number of versions of `name` currently in `Production`. -/
def prodCount (regs : Registry) (name : String) : Nat :=
  regs.countP (fun m => decide (m.name = name ∧ m.stage = Stage.production))

/-- Predicate picking the version `(name, ver)`. -/
def keyP (name : String) (ver : Nat) : ModelVersion → Bool :=
  fun m => decide (m.name = name ∧ m.version = ver)

/-- Well-formedness of the registry: `(name, version)` pairs are unique
(the registry assigns version numbers, monotonic per name). -/
def uniqVers (regs : Registry) : Prop :=
  regs.Pairwise (fun a b => ¬(a.name = b.name ∧ a.version = b.version))

/-- The registry invariant: unique `(name, version)` keys, and at most one
`Production` version per name. -/
def Inv (regs : Registry) : Prop :=
  uniqVers regs ∧ ∀ n, prodCount regs n ≤ 1

/-- One registry-mutating call of the sources: a `register_model` call or a
`promote_model` call, with its arguments and call environment. -/
inductive Op where
  | reg (runId : String) (ev : EvalResult) (s : Settings) (promote : Bool)
      (env : RegEnv)
  | prom (name : String) (ver : Nat) (acc : ℚ) (s : Settings) (env : RegEnv)

/-- The registry after executing one call. -/
def applyOp (regs : Registry) : Op → Registry
  | Op.reg runId ev s promote env => (register_model regs runId ev s promote env).regs
  | Op.prom name ver acc s env => (promote_model regs name ver acc s env).regs

theorem applyTransition_key {name : String} {ver : Nat} {tgt : Stage}
    {arch : Bool} {m : ModelVersion} (h : m.name = name ∧ m.version = ver) :
    applyTransition name ver tgt arch m = { m with stage := tgt } := by
  unfold applyTransition
  rw [if_pos h]

theorem applyTransition_archCase {name : String} {ver : Nat} {tgt : Stage}
    {arch : Bool} {m : ModelVersion}
    (h1 : ¬(m.name = name ∧ m.version = ver))
    (h2 : arch = true ∧ m.name = name ∧ m.stage = tgt) :
    applyTransition name ver tgt arch m = { m with stage := Stage.archived } := by
  unfold applyTransition
  rw [if_neg h1, if_pos h2]

theorem applyTransition_id {name : String} {ver : Nat} {tgt : Stage}
    {arch : Bool} {m : ModelVersion}
    (h1 : ¬(m.name = name ∧ m.version = ver))
    (h2 : ¬(arch = true ∧ m.name = name ∧ m.stage = tgt)) :
    applyTransition name ver tgt arch m = m := by
  unfold applyTransition
  rw [if_neg h1, if_neg h2]

theorem applyTransition_name (name : String) (ver : Nat) (tgt : Stage)
    (arch : Bool) (m : ModelVersion) :
    (applyTransition name ver tgt arch m).name = m.name := by
  by_cases h1 : m.name = name ∧ m.version = ver
  · rw [applyTransition_key h1]
  · by_cases h2 : arch = true ∧ m.name = name ∧ m.stage = tgt
    · rw [applyTransition_archCase h1 h2]
    · rw [applyTransition_id h1 h2]

theorem applyTransition_version (name : String) (ver : Nat) (tgt : Stage)
    (arch : Bool) (m : ModelVersion) :
    (applyTransition name ver tgt arch m).version = m.version := by
  by_cases h1 : m.name = name ∧ m.version = ver
  · rw [applyTransition_key h1]
  · by_cases h2 : arch = true ∧ m.name = name ∧ m.stage = tgt
    · rw [applyTransition_archCase h1 h2]
    · rw [applyTransition_id h1 h2]

theorem countP_map_le_add (f : ModelVersion → ModelVersion)
    (p q r : ModelVersion → Bool)
    (h : ∀ a, p (f a) = true → q a = true ∨ r a = true) :
    ∀ l : List ModelVersion,
      (l.map f).countP p ≤ l.countP q + l.countP r := by
  intro l
  induction l with
  | nil => simp
  | cons a t ih =>
    rw [List.map_cons, List.countP_cons, List.countP_cons, List.countP_cons]
    by_cases hp : p (f a) = true
    · rw [if_pos hp]
      by_cases hq : q a = true
      · rw [if_pos hq]
        by_cases hr : r a = true
        · rw [if_pos hr]; omega
        · rw [if_neg hr]; omega
      · rcases h a hp with hq' | hr'
        · exact absurd hq' hq
        · rw [if_neg hq, if_pos hr']; omega
    · rw [if_neg hp]
      by_cases hq : q a = true
      · rw [if_pos hq]
        by_cases hr : r a = true
        · rw [if_pos hr]; omega
        · rw [if_neg hr]; omega
      · rw [if_neg hq]
        by_cases hr : r a = true
        · rw [if_pos hr]; omega
        · rw [if_neg hr]; omega

theorem countP_map_le (f : ModelVersion → ModelVersion)
    (p q : ModelVersion → Bool)
    (h : ∀ a, p (f a) = true → q a = true) :
    ∀ l : List ModelVersion, (l.map f).countP p ≤ l.countP q := by
  intro l
  have h2 : ∀ a, p (f a) = true → q a = true ∨ (fun _ => false) a = true :=
    fun a ha => Or.inl (h a ha)
  have hb := countP_map_le_add f p q (fun _ => false) h2 l
  simpa using hb

theorem countP_key_le_one (regs : Registry) (name : String) (ver : Nat)
    (h : uniqVers regs) : regs.countP (keyP name ver) ≤ 1 := by
  induction h with
  | nil => simp
  | @cons a t ha ht ih =>
    rw [List.countP_cons]
    by_cases hk : keyP name ver a = true
    · have hz : t.countP (keyP name ver) = 0 := by
        apply List.countP_eq_zero.mpr
        intro b hb
        have hab := ha b hb
        simp only [keyP, decide_eq_true_eq] at hk ⊢
        rintro ⟨hbn, hbv⟩
        exact hab ⟨hk.1.trans hbn.symm, hk.2.trans hbv.symm⟩
      rw [if_pos hk, hz]
    · rw [if_neg hk]
      omega

theorem prodCount_transition_le_of_ne (regs : Registry)
    (name : String) (ver : Nat) (tgt : Stage) (arch : Bool) (n : String)
    (ht : tgt ≠ Stage.production) :
    prodCount (transitionStage regs name ver tgt arch) n ≤ prodCount regs n := by
  apply countP_map_le
  intro a hp
  by_cases h1 : a.name = name ∧ a.version = ver
  · rw [applyTransition_key h1] at hp
    have hp' := of_decide_eq_true hp
    exact absurd hp'.2 ht
  · by_cases h2 : arch = true ∧ a.name = name ∧ a.stage = tgt
    · rw [applyTransition_archCase h1 h2] at hp
      have hp' := of_decide_eq_true hp
      exact absurd (show Stage.archived = Stage.production from hp'.2) (by decide)
    · rw [applyTransition_id h1 h2] at hp
      exact hp

theorem prodCount_transition_other (regs : Registry)
    (name : String) (ver : Nat) (tgt : Stage) (arch : Bool) (n : String)
    (hn : n ≠ name) :
    prodCount (transitionStage regs name ver tgt arch) n ≤ prodCount regs n := by
  apply countP_map_le
  intro a hp
  by_cases h1 : a.name = name ∧ a.version = ver
  · rw [applyTransition_key h1] at hp
    have hp' := of_decide_eq_true hp
    exact absurd (hp'.1.symm.trans h1.1) hn
  · by_cases h2 : arch = true ∧ a.name = name ∧ a.stage = tgt
    · rw [applyTransition_archCase h1 h2] at hp
      have hp' := of_decide_eq_true hp
      exact absurd (show Stage.archived = Stage.production from hp'.2) (by decide)
    · rw [applyTransition_id h1 h2] at hp
      exact hp

theorem prodCount_promote_arch (regs : Registry) (name : String) (ver : Nat)
    (h : uniqVers regs) :
    prodCount (transitionStage regs name ver Stage.production true) name ≤ 1 := by
  have hle : prodCount (transitionStage regs name ver Stage.production true) name ≤
      regs.countP (keyP name ver) := by
    apply countP_map_le
    intro a hp
    by_cases h1 : a.name = name ∧ a.version = ver
    · simpa [keyP] using h1
    · by_cases h2 : true = true ∧ a.name = name ∧ a.stage = Stage.production
      · rw [applyTransition_archCase h1 h2] at hp
        have hp' := of_decide_eq_true hp
        exact absurd (show Stage.archived = Stage.production from hp'.2) (by decide)
      · rw [applyTransition_id h1 h2] at hp
        have hp' := of_decide_eq_true hp
        exact absurd ⟨rfl, hp'.1, hp'.2⟩ h2
  exact le_trans hle (countP_key_le_one regs name ver h)

theorem prodCount_bootstrap (regs : Registry) (name : String) (ver : Nat)
    (huniq : uniqVers regs) (h0 : prodCount regs name = 0) :
    prodCount (transitionStage regs name ver Stage.production false) name ≤ 1 := by
  have hle : prodCount (transitionStage regs name ver Stage.production false) name ≤
      regs.countP (keyP name ver) + prodCount regs name := by
    apply countP_map_le_add
    intro a hp
    by_cases h1 : a.name = name ∧ a.version = ver
    · exact Or.inl (by simpa [keyP] using h1)
    · by_cases h2 : false = true ∧ a.name = name ∧ a.stage = Stage.production
      · exact absurd h2.1 (by decide)
      · rw [applyTransition_id h1 h2] at hp
        exact Or.inr hp
  have hkey := countP_key_le_one regs name ver huniq
  omega

theorem uniqVers_transition (regs : Registry) (name : String) (ver : Nat)
    (tgt : Stage) (arch : Bool) (h : uniqVers regs) :
    uniqVers (transitionStage regs name ver tgt arch) := by
  unfold uniqVers transitionStage
  rw [List.pairwise_map]
  apply h.imp
  intro a b hab hcontra
  apply hab
  rw [applyTransition_name, applyTransition_name, applyTransition_version,
    applyTransition_version] at hcontra
  exact hcontra

theorem version_le_maxVer (regs : Registry) (name : String)
    (m : ModelVersion) (hm : m ∈ regs) (hn : m.name = name) :
    m.version ≤ maxVer regs name := by
  induction regs with
  | nil => cases hm
  | cons a t ih =>
    have hstep : maxVer (a :: t) name =
        if a.name = name then max a.version (maxVer t name) else maxVer t name := rfl
    rcases List.mem_cons.mp hm with rfl | hmt
    · rw [hstep, if_pos hn]
      exact le_max_left _ _
    · have hle := ih hmt
      rw [hstep]
      by_cases ha : a.name = name
      · rw [if_pos ha]
        exact le_trans hle (le_max_right _ _)
      · rw [if_neg ha]
        exact hle

theorem uniqVers_append_fresh (regs : Registry) (nv : ModelVersion)
    (h : uniqVers regs)
    (hfresh : ∀ m ∈ regs, m.name = nv.name → m.version < nv.version) :
    uniqVers (regs ++ [nv]) := by
  unfold uniqVers
  rw [List.pairwise_append]
  refine ⟨h, List.pairwise_singleton _ _, ?_⟩
  intro a ha b hb
  rcases List.mem_singleton.mp hb with rfl
  rintro ⟨hn, hv⟩
  exact absurd hv (Nat.ne_of_lt (hfresh a ha hn))

theorem prodCount_append_none (regs : Registry) (nv : ModelVersion)
    (hstage : nv.stage = Stage.none) (n : String) :
    prodCount (regs ++ [nv]) n = prodCount regs n := by
  unfold prodCount
  rw [List.countP_append]
  have : List.countP (fun m => decide (m.name = n ∧ m.stage = Stage.production))
      [nv] = 0 := by
    rw [List.countP_eq_zero]
    intro b hb
    rcases List.mem_singleton.mp hb with rfl
    simp only [decide_eq_true_eq]
    rintro ⟨_, hs⟩
    rw [hstage] at hs
    cases hs
  omega

theorem maxByVersion_mem (l : List ModelVersion) (b : ModelVersion)
    (h : maxByVersion l = some b) : b ∈ l := by
  induction l with
  | nil => cases h
  | cons a t ih =>
    unfold maxByVersion at h
    cases hm : maxByVersion t with
    | none =>
      simp only [hm] at h
      cases h
      exact List.mem_cons_self _ _
    | some c =>
      simp only [hm] at h
      by_cases hv : c.version < a.version
      · rw [if_pos hv] at h
        cases h
        exact List.mem_cons_self _ _
      · rw [if_neg hv] at h
        cases h
        exact List.mem_cons_of_mem _ (ih hm)

theorem latestProd_some (regs : Registry) (name : String)
    (prod : ModelVersion) (h : latestProd regs name = some prod) :
    prod ∈ regs ∧ prod.name = name ∧ prod.stage = Stage.production := by
  have hmem := maxByVersion_mem _ _ h
  rcases List.mem_filter.mp hmem with ⟨hin, hpred⟩
  have hp := of_decide_eq_true hpred
  exact ⟨hin, hp.1, hp.2⟩

theorem latestProd_none (regs : Registry) (name : String)
    (h : latestProd regs name = Option.none) : prodCount regs name = 0 := by
  unfold latestProd at h
  have hfil : regs.filter
      (fun m => decide (m.name = name ∧ m.stage = Stage.production)) = [] := by
    cases hf : regs.filter
        (fun m => decide (m.name = name ∧ m.stage = Stage.production)) with
    | nil => rfl
    | cons a t =>
      rw [hf] at h
      unfold maxByVersion at h
      cases hm : maxByVersion t with
      | none => simp only [hm] at h; cases h
      | some c =>
        simp only [hm] at h
        by_cases hv : c.version < a.version
        · rw [if_pos hv] at h; cases h
        · rw [if_neg hv] at h; cases h
  unfold prodCount
  rw [List.countP_eq_length_filter, hfil]
  rfl

theorem Inv_transition_of_ne (regs : Registry) (name : String) (ver : Nat)
    (tgt : Stage) (arch : Bool) (h : Inv regs) (ht : tgt ≠ Stage.production) :
    Inv (transitionStage regs name ver tgt arch) := by
  refine ⟨uniqVers_transition regs name ver tgt arch h.1, fun n => ?_⟩
  exact le_trans (prodCount_transition_le_of_ne regs name ver tgt arch n ht) (h.2 n)

theorem Inv_transition_prod_arch (regs : Registry) (name : String) (ver : Nat)
    (h : Inv regs) :
    Inv (transitionStage regs name ver Stage.production true) := by
  refine ⟨uniqVers_transition regs name ver Stage.production true h.1, fun n => ?_⟩
  by_cases hn : n = name
  · subst hn
    exact prodCount_promote_arch regs n ver h.1
  · exact le_trans
      (prodCount_transition_other regs name ver Stage.production true n hn) (h.2 n)

theorem Inv_transition_prod_boot (regs : Registry) (name : String) (ver : Nat)
    (h : Inv regs) (h0 : prodCount regs name = 0) :
    Inv (transitionStage regs name ver Stage.production false) := by
  refine ⟨uniqVers_transition regs name ver Stage.production false h.1, fun n => ?_⟩
  by_cases hn : n = name
  · subst hn
    exact prodCount_bootstrap regs n ver h.1 h0
  · exact le_trans
      (prodCount_transition_other regs name ver Stage.production false n hn) (h.2 n)

theorem Inv_promoteExceptHandler (regs : Registry) (name : String) (ver : Nat)
    (env : RegEnv) (h : Inv regs) :
    Inv (promoteExceptHandler regs name ver env).regs := by
  unfold promoteExceptHandler
  by_cases hs : env.transSafetyOk = true
  · rw [if_pos hs]
    exact Inv_transition_of_ne regs name ver Stage.staging false h (by decide)
  · rw [if_neg hs]
    exact h

theorem Inv_promote (regs : Registry) (name : String) (ver : Nat)
    (acc : ℚ) (s : Settings) (env : RegEnv) (h : Inv regs) :
    Inv (promote_model regs name ver acc s env).regs := by
  unfold promote_model
  by_cases hg : env.getLatestOk = false
  · rw [if_pos hg]
    exact Inv_promoteExceptHandler regs name ver env h
  · rw [if_neg hg]
    cases hl : latestProd regs name with
    | none =>
      by_cases ht : env.transOk = true
      · simp only [ht, if_true]
        exact Inv_transition_prod_boot regs name ver h (latestProd_none regs name hl)
      · simp only [ht, if_false]
        exact Inv_promoteExceptHandler regs name ver env h
    | some prod =>
      simp only []
      by_cases hc : lookupCurrentAccuracy prod.accuracyTag env.getRunMetric < acc
      · rw [if_pos hc]
        by_cases ht : env.transOk = true
        · rw [if_pos ht]
          exact Inv_transition_prod_arch regs name ver h
        · rw [if_neg ht]
          exact Inv_promoteExceptHandler regs name ver env h
      · rw [if_neg hc]
        by_cases ht : env.transOk = true
        · rw [if_pos ht]
          exact Inv_transition_of_ne regs name ver Stage.staging false h (by decide)
        · rw [if_neg ht]
          exact Inv_promoteExceptHandler regs name ver env h

theorem Inv_append_registered (regs : Registry) (runId : String) (acc : ℚ)
    (name : String) (h : Inv regs) :
    Inv (regs ++ [⟨name, nextVersion regs name, Stage.none, runId,
      some (TagVal.num acc)⟩]) := by
  constructor
  · apply uniqVers_append_fresh regs _ h.1
    intro m hm hn
    have hv := version_le_maxVer regs name m hm hn
    show m.version < maxVer regs name + 1
    omega
  · intro n
    rw [prodCount_append_none regs _ rfl n]
    exact h.2 n

theorem Inv_register (regs : Registry) (runId : String) (ev : EvalResult)
    (s : Settings) (promote : Bool) (env : RegEnv) (h : Inv regs) :
    Inv (register_model regs runId ev s promote env).regs := by
  unfold register_model
  by_cases he : ev.eligible = false
  · rw [if_pos he]
    exact h
  · rw [if_neg he]
    by_cases hr : env.registerOk = false
    · rw [if_pos hr]
      exact h
    · rw [if_neg hr]
      have h1 := Inv_append_registered regs runId ev.accuracy
        s.MODEL_REGISTRY_NAME h
      by_cases hu : env.updateOk = false
      · simp only [hu, if_true]
        exact h1
      · simp only [hu, if_false]
        by_cases hp : promote = true
        · simp only [hp, if_true]
          exact Inv_promote _ _ _ _ s env h1
        · simp only [hp, if_false]
          by_cases ht : env.transOk = true
          · simp only [ht, if_true]
            exact Inv_transition_of_ne _ _ _ Stage.staging true h1 (by decide)
          · simp only [ht, if_false]
            exact h1

theorem Inv_applyOp (regs : Registry) (op : Op) (h : Inv regs) :
    Inv (applyOp regs op) := by
  cases op with
  | reg runId ev s promote env => exact Inv_register regs runId ev s promote env h
  | prom name ver acc s env => exact Inv_promote regs name ver acc s env h

theorem Inv_foldl (ops : List Op) :
    ∀ regs : Registry, Inv regs → Inv (ops.foldl applyOp regs) := by
  induction ops with
  | nil => intro regs h; exact h
  | cons op t ih =>
    intro regs h
    exact ih (applyOp regs op) (Inv_applyOp regs op h)

theorem find?_pred (p : ModelVersion → Bool) (l : List ModelVersion)
    (a : ModelVersion) (h : l.find? p = some a) : p a = true := by
  induction l with
  | nil => cases h
  | cons b t ih =>
    by_cases hb : p b = true
    · rw [List.find?_cons_of_pos _ hb] at h
      cases h
      exact hb
    · rw [List.find?_cons_of_neg _ hb] at h
      exact ih h

theorem find?_map_of_pred (f : ModelVersion → ModelVersion)
    (p : ModelVersion → Bool) (hp : ∀ a, p (f a) = p a) :
    ∀ l : List ModelVersion, (l.map f).find? p = (l.find? p).map f := by
  intro l
  induction l with
  | nil => rfl
  | cons a t ih =>
    rw [List.map_cons]
    by_cases ha : p a = true
    · rw [List.find?_cons_of_pos _ (by rw [hp a]; exact ha),
        List.find?_cons_of_pos _ ha, Option.map_some']
    · rw [List.find?_cons_of_neg _ (by rw [hp a]; exact ha),
        List.find?_cons_of_neg _ ha, ih]

theorem keyPred_applyTransition (tn : String) (tv : Nat) (tgt : Stage)
    (arch : Bool) (n : String) (v : Nat) (a : ModelVersion) :
    decide ((applyTransition tn tv tgt arch a).name = n ∧
        (applyTransition tn tv tgt arch a).version = v) =
      decide (a.name = n ∧ a.version = v) := by
  rw [decide_eq_decide]
  rw [applyTransition_name, applyTransition_version]

theorem stageOf_transition (regs : Registry) (tn : String) (tv : Nat)
    (tgt : Stage) (arch : Bool) (n : String) (v : Nat) :
    stageOf (transitionStage regs tn tv tgt arch) n v =
      (regs.find? (fun m => decide (m.name = n ∧ m.version = v))).map
        (fun m => (applyTransition tn tv tgt arch m).stage) := by
  unfold stageOf transitionStage
  rw [find?_map_of_pred _ _ (fun a => keyPred_applyTransition tn tv tgt arch n v a),
    Option.map_map]
  rfl

theorem stageOf_transition_target (regs : Registry) (tn : String) (tv : Nat)
    (tgt : Stage) (arch : Bool) (nv : ModelVersion)
    (hfind : regs.find? (fun m => decide (m.name = tn ∧ m.version = tv)) = some nv) :
    stageOf (transitionStage regs tn tv tgt arch) tn tv = some tgt := by
  rw [stageOf_transition, hfind, Option.map_some']
  have hk := of_decide_eq_true (find?_pred _ _ _ hfind)
  rw [applyTransition_key hk]

theorem stageOf_transition_archIncumbent (regs : Registry) (tn : String)
    (tv : Nat) (prod : ModelVersion)
    (hfind : regs.find?
      (fun m => decide (m.name = tn ∧ m.version = prod.version)) = some prod)
    (hstage : prod.stage = Stage.production) (hne : prod.version ≠ tv) :
    stageOf (transitionStage regs tn tv Stage.production true) tn prod.version =
      some Stage.archived := by
  rw [stageOf_transition, hfind, Option.map_some']
  have hk := of_decide_eq_true (find?_pred _ _ _ hfind)
  rw [applyTransition_archCase (fun hc => hne hc.2) ⟨rfl, hk.1, hstage⟩]

theorem find?_transition_untouched (regs : Registry) (tn : String) (tv : Nat)
    (prod : ModelVersion)
    (hfind : regs.find?
      (fun m => decide (m.name = tn ∧ m.version = prod.version)) = some prod)
    (hne : prod.version ≠ tv) :
    (transitionStage regs tn tv Stage.staging false).find?
      (fun m => decide (m.name = tn ∧ m.version = prod.version)) = some prod := by
  unfold transitionStage
  rw [find?_map_of_pred _ _
      (fun a => keyPred_applyTransition tn tv Stage.staging false tn prod.version a),
    hfind, Option.map_some',
    applyTransition_id (fun hc => hne hc.2) (fun hc => by cases hc.1)]

theorem promoteExceptHandler_eq_safe (regs : Registry) (name : String)
    (ver : Nat) (env : RegEnv) (hs : env.transSafetyOk = true) :
    promoteExceptHandler regs name ver env =
      ⟨transitionStage regs name ver Stage.staging false, Option.none, false⟩ := by
  unfold promoteExceptHandler
  rw [if_pos hs]

theorem promoteExceptHandler_eq_fail (regs : Registry) (name : String)
    (ver : Nat) (env : RegEnv) (hs : env.transSafetyOk = false) :
    promoteExceptHandler regs name ver env = ⟨regs, Option.none, true⟩ := by
  unfold promoteExceptHandler
  rw [if_neg (by rw [hs]; exact Bool.false_ne_true)]

theorem promote_model_bootstrap (regs : Registry) (name : String) (ver : Nat)
    (newAcc : ℚ) (s : Settings) (env : RegEnv)
    (hg : env.getLatestOk = true) (ht : env.transOk = true)
    (hlatest : latestProd regs name = Option.none) :
    promote_model regs name ver newAcc s env =
      ⟨transitionStage regs name ver Stage.production false,
        some (trigger_cd_pipeline s env.http), false⟩ := by
  unfold promote_model
  rw [if_neg (by simp [hg]), hlatest]
  simp only []
  rw [if_pos ht]

theorem promote_model_comparison (regs : Registry) (name : String) (ver : Nat)
    (newAcc : ℚ) (s : Settings) (env : RegEnv) (prod : ModelVersion)
    (hg : env.getLatestOk = true) (ht : env.transOk = true)
    (hlatest : latestProd regs name = some prod) :
    promote_model regs name ver newAcc s env =
      if lookupCurrentAccuracy prod.accuracyTag env.getRunMetric < newAcc then
        ⟨transitionStage regs name ver Stage.production true,
          some (trigger_cd_pipeline s env.http), false⟩
      else ⟨transitionStage regs name ver Stage.staging false,
        Option.none, false⟩ := by
  unfold promote_model
  rw [if_neg (by simp [hg]), hlatest]
  simp only []
  by_cases hc : lookupCurrentAccuracy prod.accuracyTag env.getRunMetric < newAcc
  · rw [if_pos hc, if_pos ht, if_pos hc]
  · rw [if_neg hc, if_pos ht, if_neg hc]

/-- C1: for every model name, after any sequence of `register_model` /
`promote_model` calls (under any call environments) starting from a
registry satisfying the well-formedness invariant, at most one registered
version of that name holds stage `Production`, and no version is
simultaneously in `Production` and `Staging`; the comparison-case
promotion preserves this because it archives the incumbent `Production`
version in the same `transitionStage` call that promotes the winner. -/
theorem registry_mutual_exclusion_c1 (ops : List Op) (regs0 : Registry)
    (h0 : Inv regs0) :
    (∀ n, prodCount (ops.foldl applyOp regs0) n ≤ 1) ∧
    (∀ m ∈ ops.foldl applyOp regs0,
      ¬(m.stage = Stage.production ∧ m.stage = Stage.staging)) := by
  refine ⟨(Inv_foldl ops regs0 h0).2, ?_⟩
  intro m _ hc
  exact absurd (hc.1.symm.trans hc.2) (by decide)

/-- Witness for C1: a concrete register-then-promote sequence starting
from the empty registry. -/
theorem registry_mutual_exclusion_c1_witness :
    (∀ n, prodCount
      ([Op.reg "run1" ⟨(17 : ℚ)/20, true⟩ ⟨"m", 3/4, 1/20, false, "", "", ""⟩
          true ⟨true, true, true, Except.ok 0, true, true, HttpResult.ok 204⟩,
        Op.prom "m" 1 ((9 : ℚ)/10) ⟨"m", 3/4, 1/20, false, "", "", ""⟩
          ⟨true, true, true, Except.ok 0, true, true, HttpResult.ok 204⟩].foldl
        applyOp ([] : Registry)) n ≤ 1) ∧
    (∀ m ∈ [Op.reg "run1" ⟨(17 : ℚ)/20, true⟩ ⟨"m", 3/4, 1/20, false, "", "", ""⟩
          true ⟨true, true, true, Except.ok 0, true, true, HttpResult.ok 204⟩,
        Op.prom "m" 1 ((9 : ℚ)/10) ⟨"m", 3/4, 1/20, false, "", "", ""⟩
          ⟨true, true, true, Except.ok 0, true, true, HttpResult.ok 204⟩].foldl
        applyOp ([] : Registry),
      ¬(m.stage = Stage.production ∧ m.stage = Stage.staging)) :=
  registry_mutual_exclusion_c1 _ []
    ⟨List.Pairwise.nil, fun n => by simp [prodCount]⟩

/-- C5: a run whose evaluation is ineligible (accuracy strictly below
`MIN_TRAINING_ACCURACY`) makes `register_model` return `None` with the
registry untouched and no handoff; eligibility is exactly
`accuracy >= MIN_TRAINING_ACCURACY`. -/
theorem eligibility_gate_c5 (regs : Registry) (runId : String) (acc : ℚ)
    (s : Settings) (promote : Bool) (env : RegEnv)
    (h : acc < s.MIN_TRAINING_ACCURACY) :
    (evaluate_model acc s).eligible = false ∧
    register_model regs runId (evaluate_model acc s) s promote env =
      ⟨Option.none, regs, false, Option.none⟩ ∧
    (∀ a : ℚ, (evaluate_model a s).eligible = true ↔
      s.MIN_TRAINING_ACCURACY ≤ a) := by
  have he : (evaluate_model acc s).eligible = false := by
    unfold evaluate_model
    exact decide_eq_false (not_le.mpr h)
  refine ⟨he, ?_, ?_⟩
  · unfold register_model
    rw [if_pos he]
  · intro a
    unfold evaluate_model
    exact decide_eq_true_iff

/-- Witness for C5: accuracy 1/2 against the default threshold 3/4. -/
theorem eligibility_gate_c5_witness :
    (evaluate_model ((1 : ℚ)/2) ⟨"m", 3/4, 1/20, false, "", "", ""⟩).eligible
      = false ∧
    register_model [] "r" (evaluate_model ((1 : ℚ)/2)
        ⟨"m", 3/4, 1/20, false, "", "", ""⟩)
      ⟨"m", 3/4, 1/20, false, "", "", ""⟩ true
      ⟨true, true, true, Except.ok 0, true, true, HttpResult.ok 204⟩ =
      ⟨Option.none, [], false, Option.none⟩ ∧
    (∀ a : ℚ, (evaluate_model a ⟨"m", 3/4, 1/20, false, "", "", ""⟩).eligible
      = true ↔ (3 : ℚ)/4 ≤ a) :=
  eligibility_gate_c5 [] "r" (1/2) ⟨"m", 3/4, 1/20, false, "", "", ""⟩ true
    ⟨true, true, true, Except.ok 0, true, true, HttpResult.ok 204⟩
    (by norm_num)

/-- C8: with the CD trigger disabled, or any of the GitHub token /
repository owner / repository name empty, `trigger_cd_pipeline` returns
`False` without issuing a network request. -/
theorem handoff_gating_c8 (s : Settings) (http : HttpResult)
    (h : s.ENABLE_CD_TRIGGER = false ∨ s.GITHUB_TOKEN = "" ∨
      s.GITHUB_REPO_OWNER = "" ∨ s.GITHUB_REPO_NAME = "") :
    trigger_cd_pipeline s http = ⟨false, false⟩ := by
  unfold trigger_cd_pipeline
  rcases h with he | hgate
  · rw [if_pos he]
  · by_cases he : s.ENABLE_CD_TRIGGER = false
    · rw [if_pos he]
    · rw [if_neg he, if_pos hgate]

/-- Witness for C8: trigger enabled but token missing. -/
theorem handoff_gating_c8_witness :
    trigger_cd_pipeline ⟨"m", 3/4, 1/20, true, "", "owner", "repo"⟩
      (HttpResult.ok 204) = ⟨false, false⟩ :=
  handoff_gating_c8 _ _ (Or.inr (Or.inl rfl))

/-- C2: with a `Production` incumbent present and the registry calls
succeeding, `promote_model` transitions the new version to `Production`
and archives the incumbent in that same transition exactly when
`new_accuracy > current_accuracy` (the resolved incumbent accuracy);
otherwise — including an exact tie — the new version goes to `Staging`,
the incumbent's registry entry is left untouched, and no handoff fires. -/
theorem promotion_strict_improvement_c2 (regs : Registry) (name : String)
    (ver : Nat) (newAcc : ℚ) (s : Settings) (env : RegEnv)
    (prod nv : ModelVersion)
    (hg : env.getLatestOk = true) (ht : env.transOk = true)
    (hlatest : latestProd regs name = some prod)
    (hfind : regs.find?
      (fun m => decide (m.name = name ∧ m.version = ver)) = some nv)
    (hfindp : regs.find?
      (fun m => decide (m.name = name ∧ m.version = prod.version)) = some prod)
    (hne : prod.version ≠ ver) :
    (lookupCurrentAccuracy prod.accuracyTag env.getRunMetric < newAcc →
      stageOf (promote_model regs name ver newAcc s env).regs name ver =
        some Stage.production ∧
      stageOf (promote_model regs name ver newAcc s env).regs name prod.version =
        some Stage.archived) ∧
    (¬ lookupCurrentAccuracy prod.accuracyTag env.getRunMetric < newAcc →
      stageOf (promote_model regs name ver newAcc s env).regs name ver =
        some Stage.staging ∧
      (promote_model regs name ver newAcc s env).regs.find?
        (fun m => decide (m.name = name ∧ m.version = prod.version)) = some prod ∧
      (promote_model regs name ver newAcc s env).cdResult = Option.none) := by
  have hps := latestProd_some regs name prod hlatest
  constructor
  · intro hc
    rw [promote_model_comparison regs name ver newAcc s env prod hg ht hlatest,
      if_pos hc]
    exact ⟨stageOf_transition_target _ _ _ _ _ _ hfind,
      stageOf_transition_archIncumbent _ _ _ _ hfindp hps.2.2 hne⟩
  · intro hc
    rw [promote_model_comparison regs name ver newAcc s env prod hg ht hlatest,
      if_neg hc]
    exact ⟨stageOf_transition_target _ _ _ _ _ _ hfind,
      find?_transition_untouched _ _ _ _ hfindp hne, rfl⟩

/-- Witness for C2: incumbent at accuracy 17/20, candidate at 9/10 wins. -/
theorem promotion_strict_improvement_c2_witness :
    stageOf (promote_model
      [⟨"m", 1, Stage.production, "r0", some (TagVal.num (17/20))⟩,
       ⟨"m", 2, Stage.none, "r1", some (TagVal.num (9/10))⟩] "m" 2 ((9 : ℚ)/10)
      ⟨"m", 3/4, 1/20, false, "", "", ""⟩
      ⟨true, true, true, Except.ok 0, true, true, HttpResult.ok 204⟩).regs
      "m" 2 = some Stage.production ∧
    stageOf (promote_model
      [⟨"m", 1, Stage.production, "r0", some (TagVal.num (17/20))⟩,
       ⟨"m", 2, Stage.none, "r1", some (TagVal.num (9/10))⟩] "m" 2 ((9 : ℚ)/10)
      ⟨"m", 3/4, 1/20, false, "", "", ""⟩
      ⟨true, true, true, Except.ok 0, true, true, HttpResult.ok 204⟩).regs
      "m" 1 = some Stage.archived :=
  (promotion_strict_improvement_c2 _ "m" 2 ((9 : ℚ)/10) _ _
      ⟨"m", 1, Stage.production, "r0", some (TagVal.num (17/20))⟩
      ⟨"m", 2, Stage.none, "r1", some (TagVal.num (9/10))⟩
      rfl rfl (by rfl) (by rfl) (by rfl) (by decide)).1
    (by norm_num [lookupCurrentAccuracy])

/-- C4: with no `Production` version registered for the name (bootstrap),
`promote_model` promotes the eligible candidate unconditionally — the
result does not depend on the accuracy-lookup outcome — and proceeds to
the CT to CD handoff call. -/
theorem bootstrap_promotion_c4 (regs : Registry) (name : String) (ver : Nat)
    (newAcc : ℚ) (s : Settings) (env : RegEnv) (nv : ModelVersion)
    (hg : env.getLatestOk = true) (ht : env.transOk = true)
    (hlatest : latestProd regs name = Option.none)
    (hfind : regs.find?
      (fun m => decide (m.name = name ∧ m.version = ver)) = some nv) :
    stageOf (promote_model regs name ver newAcc s env).regs name ver =
      some Stage.production ∧
    (promote_model regs name ver newAcc s env).cdResult =
      some (trigger_cd_pipeline s env.http) ∧
    (promote_model regs name ver newAcc s env).raised = false ∧
    (∀ g1 g2 : Except Unit ℚ,
      promote_model regs name ver newAcc s { env with getRunMetric := g1 } =
        promote_model regs name ver newAcc s { env with getRunMetric := g2 }) := by
  have hb := promote_model_bootstrap regs name ver newAcc s env hg ht hlatest
  refine ⟨?_, ?_, ?_, ?_⟩
  · rw [hb]
    exact stageOf_transition_target _ _ _ _ _ _ hfind
  · rw [hb]
  · rw [hb]
  · intro g1 g2
    have h1 := promote_model_bootstrap regs name ver newAcc s
      { env with getRunMetric := g1 } hg ht hlatest
    have h2 := promote_model_bootstrap regs name ver newAcc s
      { env with getRunMetric := g2 } hg ht hlatest
    rw [h1, h2]

/-- Witness for C4: a single unstaged version, empty production set. -/
theorem bootstrap_promotion_c4_witness :
    stageOf (promote_model [⟨"m", 1, Stage.none, "r1", Option.none⟩] "m" 1
      ((4 : ℚ)/5) ⟨"m", 3/4, 1/20, true, "t", "o", "r"⟩
      ⟨true, true, true, Except.error (), true, true, HttpResult.ok 204⟩).regs
      "m" 1 = some Stage.production ∧
    (promote_model [⟨"m", 1, Stage.none, "r1", Option.none⟩] "m" 1
      ((4 : ℚ)/5) ⟨"m", 3/4, 1/20, true, "t", "o", "r"⟩
      ⟨true, true, true, Except.error (), true, true, HttpResult.ok 204⟩).cdResult =
      some (trigger_cd_pipeline ⟨"m", 3/4, 1/20, true, "t", "o", "r"⟩
        (HttpResult.ok 204)) := by
  have hmain := bootstrap_promotion_c4 [⟨"m", 1, Stage.none, "r1", Option.none⟩]
    "m" 1 ((4 : ℚ)/5) ⟨"m", 3/4, 1/20, true, "t", "o", "r"⟩
    ⟨true, true, true, Except.error (), true, true, HttpResult.ok 204⟩
    ⟨"m", 1, Stage.none, "r1", Option.none⟩ rfl rfl (by rfl) (by rfl)
  exact ⟨hmain.1, hmain.2.1⟩

/-- C10: in the comparison case, an incumbent accuracy tag equal to `0.0`
falls back to the metrics store, and every raising outcome of the lookup
chain (malformed tag, or absent/zero tag with a failing metrics query)
resolves the incumbent accuracy to `0.0`, so any candidate with accuracy
strictly above `0` is promoted over such an incumbent. -/
theorem accuracy_fallback_c10 (regs : Registry) (name : String) (ver : Nat)
    (newAcc : ℚ) (s : Settings) (env : RegEnv) (prod nv : ModelVersion)
    (hg : env.getLatestOk = true) (ht : env.transOk = true)
    (hlatest : latestProd regs name = some prod)
    (hfind : regs.find?
      (fun m => decide (m.name = name ∧ m.version = ver)) = some nv)
    (hfail : prod.accuracyTag = some TagVal.malformed ∨
      ((prod.accuracyTag = Option.none ∨
          prod.accuracyTag = some (TagVal.num 0)) ∧
        env.getRunMetric = Except.error ())) :
    lookupCurrentAccuracy prod.accuracyTag env.getRunMetric = 0 ∧
    (∀ q : ℚ, lookupCurrentAccuracy (some (TagVal.num 0)) (Except.ok q) = q) ∧
    (0 < newAcc →
      stageOf (promote_model regs name ver newAcc s env).regs name ver =
        some Stage.production) := by
  have h0 : lookupCurrentAccuracy prod.accuracyTag env.getRunMetric = 0 := by
    rcases hfail with hm | ⟨htag, herr⟩
    · rw [hm]
      rfl
    · rcases htag with hn | hz
      · rw [hn, herr]
        rfl
      · rw [hz, herr]
        simp [lookupCurrentAccuracy]
  refine ⟨h0, ?_, ?_⟩
  · intro q
    simp [lookupCurrentAccuracy]
  · intro hpos
    rw [promote_model_comparison regs name ver newAcc s env prod hg ht hlatest,
      if_pos (by rw [h0]; exact hpos)]
    exact stageOf_transition_target _ _ _ _ _ _ hfind

/-- Witness for C10: incumbent with a zero accuracy tag and a failing
metrics query loses to a candidate at accuracy 3/5. -/
theorem accuracy_fallback_c10_witness :
    lookupCurrentAccuracy (some (TagVal.num 0)) (Except.error ()) = 0 ∧
    stageOf (promote_model
      [⟨"m", 1, Stage.production, "r0", some (TagVal.num 0)⟩,
       ⟨"m", 2, Stage.none, "r1", some (TagVal.num (3/5))⟩] "m" 2 ((3 : ℚ)/5)
      ⟨"m", 3/4, 1/20, false, "", "", ""⟩
      ⟨true, true, true, Except.error (), true, true, HttpResult.ok 204⟩).regs
      "m" 2 = some Stage.production := by
  have hmain := accuracy_fallback_c10
    [⟨"m", 1, Stage.production, "r0", some (TagVal.num 0)⟩,
     ⟨"m", 2, Stage.none, "r1", some (TagVal.num (3/5))⟩] "m" 2 ((3 : ℚ)/5)
    ⟨"m", 3/4, 1/20, false, "", "", ""⟩
    ⟨true, true, true, Except.error (), true, true, HttpResult.ok 204⟩
    ⟨"m", 1, Stage.production, "r0", some (TagVal.num 0)⟩
    ⟨"m", 2, Stage.none, "r1", some (TagVal.num (3/5))⟩
    rfl rfl (by rfl) (by rfl) (Or.inr ⟨Or.inr rfl, rfl⟩)
  exact ⟨hmain.1, hmain.2.2 (by norm_num)⟩

/-- C3 counterexample: with the stage-transition call raising and the
safety transition succeeding, `promote_model` ends the new version in
`Staging` but returns normally (`raised = false`) — the original error is
swallowed, not re-raised as the claim states. -/
theorem promotion_error_swallowed_c3_counterexample :
    (promote_model [⟨"m", 1, Stage.none, "r1", Option.none⟩] "m" 1 ((9 : ℚ)/10)
        ⟨"m", 3/4, 1/20, false, "", "", ""⟩
        ⟨true, true, true, Except.ok 0, false, true, HttpResult.ok 204⟩).raised
      = false ∧
    stageOf (promote_model [⟨"m", 1, Stage.none, "r1", Option.none⟩] "m" 1
        ((9 : ℚ)/10) ⟨"m", 3/4, 1/20, false, "", "", ""⟩
        ⟨true, true, true, Except.ok 0, false, true, HttpResult.ok 204⟩).regs
      "m" 1 = some Stage.staging := by
  constructor
  · rfl
  · rfl

/-- C3 (amended): if the registry query or a stage-transition call raises
during the promotion decision, `promote_model` performs the safety
transition of the new version to `Staging` and then returns normally —
the error is logged and swallowed, not re-raised; only a failure of the
safety transition itself propagates, leaving the registry unchanged. -/
theorem promotion_failure_safety_c3_amended (regs : Registry) (name : String)
    (ver : Nat) (acc : ℚ) (s : Settings) (env : RegEnv)
    (hfail : env.getLatestOk = false ∨ env.transOk = false) :
    (env.transSafetyOk = true →
      promote_model regs name ver acc s env =
        ⟨transitionStage regs name ver Stage.staging false, Option.none, false⟩) ∧
    (env.transSafetyOk = false →
      promote_model regs name ver acc s env = ⟨regs, Option.none, true⟩) := by
  have hh : promote_model regs name ver acc s env =
      promoteExceptHandler regs name ver env := by
    unfold promote_model
    rcases hfail with hg | htf
    · rw [if_pos hg]
    · by_cases hg : env.getLatestOk = false
      · rw [if_pos hg]
      · rw [if_neg hg]
        cases hl : latestProd regs name with
        | none =>
          simp only []
          rw [if_neg (by rw [htf]; exact Bool.false_ne_true)]
        | some prod =>
          simp only []
          by_cases hc : lookupCurrentAccuracy prod.accuracyTag env.getRunMetric < acc
          · rw [if_pos hc, if_neg (by rw [htf]; exact Bool.false_ne_true)]
          · rw [if_neg hc, if_neg (by rw [htf]; exact Bool.false_ne_true)]
  constructor
  · intro hs
    rw [hh, promoteExceptHandler_eq_safe regs name ver env hs]
  · intro hs
    rw [hh, promoteExceptHandler_eq_fail regs name ver env hs]

/-- Witness for the amended C3: `get_latest_versions` raising with a
succeeding safety transition. -/
theorem promotion_failure_safety_c3_witness :
    promote_model [⟨"m", 1, Stage.none, "r1", Option.none⟩] "m" 1 ((9 : ℚ)/10)
      ⟨"m", 3/4, 1/20, false, "", "", ""⟩
      ⟨true, true, false, Except.ok 0, true, true, HttpResult.ok 204⟩ =
      ⟨transitionStage [⟨"m", 1, Stage.none, "r1", Option.none⟩] "m" 1
        Stage.staging false, Option.none, false⟩ :=
  (promotion_failure_safety_c3_amended _ _ _ _ _ _ (Or.inl rfl)).1 rfl

/-- C7: `trigger_cd_pipeline` returns a boolean on every outcome of the
delivery attempt — timeouts, connection errors, unexpected statuses and
any other exception all yield `False` — and returns `True` exactly when
the gates pass and the POST gets status 204; moreover a promotion already
committed by `promote_model` is the same registry transition whatever the
handoff outcome is (no rollback). -/
theorem handoff_never_raises_c7 :
    ∀ (s : Settings) (http : HttpResult),
      ((trigger_cd_pipeline s http).ok = true ↔
        (s.ENABLE_CD_TRIGGER = true ∧
          ¬(s.GITHUB_TOKEN = "" ∨ s.GITHUB_REPO_OWNER = "" ∨
            s.GITHUB_REPO_NAME = "") ∧ http = HttpResult.ok 204)) ∧
      (∀ (regs : Registry) (name : String) (ver : Nat) (acc : ℚ)
          (env : RegEnv) (prod : ModelVersion),
        env.getLatestOk = true → env.transOk = true →
        latestProd regs name = some prod →
        lookupCurrentAccuracy prod.accuracyTag env.getRunMetric < acc →
        (promote_model regs name ver acc s env).regs =
          transitionStage regs name ver Stage.production true ∧
        (promote_model regs name ver acc s env).raised = false) := by
  intro s http
  constructor
  · unfold trigger_cd_pipeline triggerRequest
    by_cases he : s.ENABLE_CD_TRIGGER = false
    · rw [if_pos he]
      simp [he]
    · rw [if_neg he]
      have he' : s.ENABLE_CD_TRIGGER = true := by
        cases hb : s.ENABLE_CD_TRIGGER
        · exact absurd hb he
        · rfl
      by_cases hgate : s.GITHUB_TOKEN = "" ∨ s.GITHUB_REPO_OWNER = "" ∨
          s.GITHUB_REPO_NAME = ""
      · rw [if_pos hgate]
        simp [hgate]
      · rw [if_neg hgate]
        cases http with
        | ok st => simp [he', hgate]
        | raiseNetwork => simp [he', hgate]
        | raiseOther => simp [he', hgate]
  · intro regs name ver acc env prod hg ht hlatest hc
    rw [promote_model_comparison regs name ver acc s env prod hg ht hlatest,
      if_pos hc]
    exact ⟨rfl, rfl⟩

/-- Witness for C7: gates pass and the endpoint answers 204. -/
theorem handoff_never_raises_c7_witness :
    (trigger_cd_pipeline ⟨"m", 3/4, 1/20, true, "t", "o", "r"⟩
      (HttpResult.ok 204)).ok = true :=
  (handoff_never_raises_c7 ⟨"m", 3/4, 1/20, true, "t", "o", "r"⟩
      (HttpResult.ok 204)).1.mpr ⟨rfl, by decide, rfl⟩

/-- C6 counterexample: when the drift library call itself fails
(`Report.run` raising), `run_drift_analysis` propagates the exception —
`check_drift_and_performance` yields an error, not the retrain decision
`true` the claim requires for every unproducible analysis. -/
theorem drift_failure_raises_c6_counterexample :
    check_drift_and_performance ((1 : ℚ)/20)
      ⟨false, ⟨some (some false), some (17/20, 17/20)⟩, true⟩ =
      Except.error () ∧
    ¬ check_drift_and_performance ((1 : ℚ)/20)
      ⟨false, ⟨some (some false), some (17/20, 17/20)⟩, true⟩ =
      Except.ok true := by
  constructor
  · rfl
  · intro hc
    cases hc

/-- C6 (amended): when the drift report is produced but extraction of the
drift status or of the performance entries fails (indexing error on the
report dictionary), the retrain decision defaults to `true` for any
degradation threshold below 1; a failure of the analysis library call
itself is not caught and propagates as an exception instead. -/
theorem drift_extraction_failsafe_c6_amended (t : ℚ) (env : DriftEnv)
    (hrun : env.runOk = true) (hsuite : env.suiteOk = true)
    (hfail : env.report.driftIndex = Option.none ∨
      env.report.perfIndex = Option.none)
    (ht : t < 1) :
    check_drift_and_performance t env = Except.ok true ∧
    (∀ env2 : DriftEnv, env2.runOk = false →
      check_drift_and_performance t env2 = Except.error ()) := by
  constructor
  · rcases hfail with hd | hp
    · simp [check_drift_and_performance, run_drift_analysis, hrun, hsuite, hd]
    · simp [check_drift_and_performance, run_drift_analysis, hrun, hsuite, hp, ht]
  · intro env2 h2
    simp [check_drift_and_performance, run_drift_analysis, h2]

/-- Witness for the amended C6: report produced, drift entry unextractable. -/
theorem drift_extraction_failsafe_c6_witness :
    check_drift_and_performance ((1 : ℚ)/20)
      ⟨true, ⟨Option.none, some (17/20, 17/20)⟩, true⟩ = Except.ok true ∧
    (∀ env2 : DriftEnv, env2.runOk = false →
      check_drift_and_performance ((1 : ℚ)/20) env2 = Except.error ()) :=
  drift_extraction_failsafe_c6_amended ((1 : ℚ)/20)
    ⟨true, ⟨Option.none, some (17/20, 17/20)⟩, true⟩ rfl rfl (Or.inl rfl)
    (by norm_num)

/-- C9 (code bug): `simulate_current_data` does return the reference
dataset whenever the `Production`-model load fails (the load sits inside
its `try`), but flows.py never binds the name `mlflow`, so
`mlflow.set_tracking_uri` at line 173 raises `NameError` on every
invocation of `retraining_flow` — in the module as written
(`mlflowBound = false`) every run, whatever its inputs, ends `failed`
with the registry untouched and can never reach the skip path the claim
describes.  With the missing `import mlflow` supplied
(`mlflowBound = true`), the claimed behaviour holds: a
`force_retrain = false` run whose model load fails compares the reference
data with itself and — the drift engine reporting no drift and equal
accuracies on the identical pair, with a non-negative degradation
threshold — ends on the skip path with the registry untouched. -/
theorem flow_name_error_c9 (regs : Registry) (raw reference : Dataset)
    (engine : Dataset → Dataset → DriftEnv) (trainOk : Bool)
    (trainedAcc : ℚ) (runId : String) (s : Settings) (env : RegEnv) (c : ℚ)
    (forceRetrain : Bool) (loadRawOk validateOk loadRefOk : Bool)
    (prodLoad : Option (String → String))
    (hrun : (engine reference reference).runOk = true)
    (hsuite : (engine reference reference).suiteOk = true)
    (hdrift : (engine reference reference).report.driftIndex =
      some (some false))
    (hperf : (engine reference reference).report.perfIndex = some (c, c))
    (hth : 0 ≤ s.MODEL_PERFORMANCE_DEGRADATION_THRESHOLD) :
    retraining_flow false regs forceRetrain raw reference loadRawOk validateOk
      loadRefOk prodLoad engine trainOk trainedAcc runId s env =
      ⟨FlowOutcome.failed, regs⟩ ∧
    simulate_current_data reference raw Option.none = reference ∧
    retraining_flow true regs false raw reference true true true Option.none
      engine trainOk trainedAcc runId s env =
      ⟨FlowOutcome.skipped, regs⟩ := by
  have hd0 : decide (s.MODEL_PERFORMANCE_DEGRADATION_THRESHOLD < 0) = false :=
    decide_eq_false (not_lt.mpr hth)
  refine ⟨rfl, rfl, ?_⟩
  simp [retraining_flow, simulate_current_data, check_drift_and_performance,
    run_drift_analysis, hrun, hsuite, hdrift, hperf, hd0]

/-- Witness for C9: with `mlflow` unbound the concrete run fails; with
the missing binding supplied, a concrete engine reporting no drift and
equal accuracies on the identical pair yields the skip path. -/
theorem flow_name_error_c9_witness :
    retraining_flow false [] false [⟨1, "good", "pos", ""⟩] [] true true true
      Option.none
      (fun _ _ => ⟨true, ⟨some (some false), some ((4 : ℚ)/5, (4 : ℚ)/5)⟩, true⟩)
      true ((9 : ℚ)/10) "r1" ⟨"m", 3/4, 1/20, false, "", "", ""⟩
      ⟨true, true, true, Except.ok 0, true, true, HttpResult.ok 204⟩ =
      ⟨FlowOutcome.failed, []⟩ ∧
    simulate_current_data [] [⟨1, "good", "pos", ""⟩] Option.none = [] ∧
    retraining_flow true [] false [⟨1, "good", "pos", ""⟩] [] true true true
      Option.none
      (fun _ _ => ⟨true, ⟨some (some false), some ((4 : ℚ)/5, (4 : ℚ)/5)⟩, true⟩)
      true ((9 : ℚ)/10) "r1" ⟨"m", 3/4, 1/20, false, "", "", ""⟩
      ⟨true, true, true, Except.ok 0, true, true, HttpResult.ok 204⟩ =
      ⟨FlowOutcome.skipped, []⟩ :=
  flow_name_error_c9 [] [⟨1, "good", "pos", ""⟩] []
    (fun _ _ => ⟨true, ⟨some (some false), some ((4 : ℚ)/5, (4 : ℚ)/5)⟩, true⟩)
    true ((9 : ℚ)/10) "r1" ⟨"m", 3/4, 1/20, false, "", "", ""⟩
    ⟨true, true, true, Except.ok 0, true, true, HttpResult.ok 204⟩ ((4 : ℚ)/5)
    false true true true Option.none
    rfl rfl rfl rfl (by norm_num)

end MLPipeline